import Mathlib

/-!
Verification of the poll/vote core of the alx-polly application.

The development shallowly embeds the relational state (tables `polls`,
`poll_options`, `votes` from `database_schema.sql`) as lists of rows, and the
server actions and query helpers of `lib/actions.ts` (`createPoll`,
`updatePoll`, `deletePoll`, `submitVote`, `fetchPollWithOptions`) together
with the results-page query (`fetchPollResults`) and the create-form helper
(`addOption`) as pure functions over that state.

Supabase conventions captured by the embedding:
* `.select(...).eq(...).single()` reads are pure lookups in the row lists;
  `.single()` yields an error (here: `none`) when no row matches.
* write calls (`insert` / `update` / `delete`) can be rejected by the
  storage layer for transport reasons; each operation therefore threads a
  `fails` stream, one `Bool` per write call, `true` meaning the storage
  layer reports an error for that call.  The empty stream means every write
  reaches the database.
* the `votes` table carries `UNIQUE(poll_id, user_id)`; an insert that
  violates it is rejected by the storage layer itself (independently of the
  `fails` stream).
* cascading deletes follow the `ON DELETE CASCADE` clauses of the schema.

Concurrent duplicate voting is modelled by an interleaving semantics: each
in-flight `submitVote` request is a thread stepping through the atomic
storage operations of the action (poll lookup, option lookup, duplicate
lookup, insert), and a schedule picks which thread performs its next
storage operation.
-/

set_option autoImplicit false

namespace AlxPolly

/-- JavaScript `String.prototype.trim`, written over the character list so
that it evaluates inside the kernel. -/
def jsTrim (s : String) : String :=
  ⟨((s.data.dropWhile Char.isWhitespace).reverse.dropWhile Char.isWhitespace).reverse⟩

/-- Row of the `polls` table (`database_schema.sql`).  `created_at` is an
abstract timestamp; the database default is modelled as `0`. -/
structure PollRow where
  id : String
  title : String
  question : String
  user_id : String
  created_at : Nat
deriving DecidableEq

/-- Row of the `poll_options` table. -/
structure PollOptionRow where
  id : String
  poll_id : String
  option_text : String
  created_at : Nat
deriving DecidableEq

/-- Row of the `votes` table.  The table carries `UNIQUE(poll_id, user_id)`. -/
structure VoteRow where
  id : String
  poll_id : String
  option_id : String
  user_id : String
  created_at : Nat
deriving DecidableEq

/-- The relational state: the three tables of the schema. -/
structure DB where
  polls : List PollRow
  poll_options : List PollOptionRow
  votes : List VoteRow
deriving DecidableEq

/-- `ApiResponse` from `lib/types.ts`: `{ success, data?, error? }`. -/
structure ApiResponse (α : Type) where
  success : Bool
  data : Option α
  error : Option String
deriving DecidableEq

/-- Failure response (`{ success: false, error: e }`). -/
def respErr {α : Type} (e : String) : ApiResponse α := ⟨false, none, some e⟩

/-- Success response without payload (`{ success: true }`). -/
def respOk {α : Type} : ApiResponse α := ⟨true, none, none⟩

/-- `CreatePollFormData` from `lib/types.ts`. -/
structure CreatePollFormData where
  title : String
  question : String
  options : List String
deriving DecidableEq

/-- One entry of `EditPollFormData.options`: `{ id?, text, isNew? }`.  A JS
`undefined` id is `none`. -/
structure EditOptionInput where
  id : Option String
  text : String
  isNew : Bool
deriving DecidableEq

/-- `EditPollFormData` from `lib/types.ts`. -/
structure EditPollFormData where
  title : String
  question : String
  options : List EditOptionInput
deriving DecidableEq

/-- `from('polls').select(...).eq('id', pollId).single()`. -/
def findPoll (db : DB) (pollId : String) : Option PollRow :=
  db.polls.find? (fun r => r.id == pollId)

/-- `from('poll_options').select('id, poll_id').eq('id', optionId)
.eq('poll_id', pollId).single()`. -/
def findOption (db : DB) (optionId pollId : String) : Option PollOptionRow :=
  db.poll_options.find? (fun r => r.id == optionId && r.poll_id == pollId)

/-- `from('votes').select('id').eq('poll_id', pollId).eq('user_id', userId)
.single()`. -/
def findVote (db : DB) (pollId userId : String) : Option VoteRow :=
  db.votes.find? (fun v => v.poll_id == pollId && v.user_id == userId)

/-- Whether a vote row with the given `(poll_id, user_id)` pair is present:
the condition checked by the `UNIQUE(poll_id, user_id)` constraint. -/
def hasVotePU (votes : List VoteRow) (pollId userId : String) : Bool :=
  votes.any (fun v => v.poll_id == pollId && v.user_id == userId)

/-- Outcome of the next storage write according to the injected-failure
stream: an exhausted stream means the write succeeds. -/
def nextFail : List Bool → Bool × List Bool
  | [] => (false, [])
  | b :: rest => (b, rest)

/-- Generated primary key for a poll insert (`gen_random_uuid()` is modelled
by a key fresh for the states the development evaluates). -/
def freshPollId (db : DB) : String := "p" ++ toString db.polls.length

/-- Generated primary key for a vote insert. -/
def freshVoteId (db : DB) : String := "v" ++ toString db.votes.length

/-- Generated primary keys for a batch insert of option texts, paired with
the rows they produce. -/
def newOptionRows (db : DB) (pollId : String) (texts : List String) :
    List PollOptionRow :=
  texts.enum.map (fun x =>
    ⟨"o" ++ toString (db.poll_options.length + x.1), pollId, jsTrim x.2, 0⟩)

/-- Server action `submitVote(pollId, optionId, userId)` from
`lib/actions.ts`.  Checks, in order: the poll exists, the option exists and
belongs to the poll, no vote by this user on this poll exists; then inserts
the vote.  Any error of the insert call — injected by `fails` or raised by
the `UNIQUE(poll_id, user_id)` constraint — is reported as the one generic
message `'Failed to submit vote'`. -/
def submitVote (db : DB) (pollId optionId userId : String) (fails : List Bool) :
    ApiResponse Unit × DB :=
  match findPoll db pollId with
  | none => (respErr "Poll not found", db)
  | some _ =>
    match findOption db optionId pollId with
    | none => (respErr "Invalid option selected", db)
    | some _ =>
      match findVote db pollId userId with
      | some _ => (respErr "You have already voted on this poll", db)
      | none =>
        let f := nextFail fails
        if f.1 || hasVotePU db.votes pollId userId then
          (respErr "Failed to submit vote", db)
        else
          (respOk,
           { db with votes := db.votes ++ [⟨freshVoteId db, pollId, optionId, userId, 0⟩] })

/-- Server action `createPoll(formData, userId)` from `lib/actions.ts`.
Validates title/question and the non-blank option count, inserts the poll
row, then batch-inserts the option rows. -/
def createPoll (db : DB) (formData : CreatePollFormData) (userId : String)
    (fails : List Bool) : ApiResponse PollRow × DB :=
  if jsTrim formData.title == "" || jsTrim formData.question == "" then
    (respErr "Title and question are required", db)
  else
    let validOptions := formData.options.filter (fun o => jsTrim o != "")
    if validOptions.length < 2 then
      (respErr "At least 2 options are required", db)
    else
      let f1 := nextFail fails
      if f1.1 then (respErr "Failed to create poll", db)
      else
        let pollData : PollRow :=
          ⟨freshPollId db, jsTrim formData.title, jsTrim formData.question, userId, 0⟩
        let db1 := { db with polls := db.polls ++ [pollData] }
        let f2 := nextFail f1.2
        if f2.1 then (respErr "Failed to create poll options", db1)
        else
          ({ success := true, data := some pollData, error := none },
           { db1 with poll_options :=
               db1.poll_options ++ newOptionRows db1 pollData.id validOptions })

/-- The `for (const option of existingOptions)` loop of `updatePoll`: one
`update ... eq('id', option.id)` write per entry, aborting with the error
message on the first rejected write and keeping the updates already
applied. -/
def updateExistingOptions (db : DB) (opts : List EditOptionInput)
    (fails : List Bool) : Option String × DB × List Bool :=
  match opts with
  | [] => (none, db, fails)
  | o :: rest =>
    match o.id with
    | none => updateExistingOptions db rest fails
    | some oid =>
      let f := nextFail fails
      if f.1 then (some "Failed to update poll options", db, f.2)
      else
        updateExistingOptions
          { db with poll_options :=
              db.poll_options.map (fun r =>
                if r.id == oid then { r with option_text := jsTrim o.text } else r) }
          rest f.2

/-- Server action `updatePoll(pollId, formData, userId)` from
`lib/actions.ts`.  Validates, checks ownership, updates the poll row, then
updates each option edit carrying an id and batch-inserts the entries marked
new.  No option is ever deleted here, although the action's documentation
announces deletions. -/
def updatePoll (db : DB) (pollId : String) (formData : EditPollFormData)
    (userId : String) (fails : List Bool) : ApiResponse Unit × DB :=
  if jsTrim formData.title == "" || jsTrim formData.question == "" then
    (respErr "Title and question are required", db)
  else
    if (formData.options.filter (fun o => jsTrim o.text != "")).length < 2 then
      (respErr "At least 2 options are required", db)
    else
      match findPoll db pollId with
      | none => (respErr "Poll not found or access denied", db)
      | some poll =>
        if poll.user_id != userId then
          (respErr "Poll not found or access denied", db)
        else
          let f1 := nextFail fails
          if f1.1 then (respErr "Failed to update poll", db)
          else
            let db1 :=
              { db with polls := db.polls.map (fun r =>
                  if r.id == pollId then
                    { r with title := jsTrim formData.title,
                             question := jsTrim formData.question }
                  else r) }
            let existingOptions := formData.options.filter (fun o => o.id.isSome)
            let newOptions :=
              formData.options.filter (fun o => o.isNew && jsTrim o.text != "")
            match updateExistingOptions db1 existingOptions f1.2 with
            | (some e, db2, _) => (respErr e, db2)
            | (none, db2, fails2) =>
              if newOptions.length > 0 then
                let f3 := nextFail fails2
                if f3.1 then (respErr "Failed to add new options", db2)
                else
                  (respOk,
                   { db2 with poll_options :=
                       db2.poll_options ++
                         newOptionRows db2 pollId (newOptions.map (·.text)) })
              else (respOk, db2)

/-- Server action `deletePoll(pollId, userId)` from `lib/actions.ts`.
Checks ownership, then deletes the poll row; the `ON DELETE CASCADE`
clauses remove its options, and the votes referencing the poll or one of
its options. -/
def deletePoll (db : DB) (pollId userId : String) (fails : List Bool) :
    ApiResponse Unit × DB :=
  match findPoll db pollId with
  | none => (respErr "Poll not found or access denied", db)
  | some poll =>
    if poll.user_id != userId then
      (respErr "Poll not found or access denied", db)
    else
      let f := nextFail fails
      if f.1 then (respErr "Failed to delete poll", db)
      else
        (respOk,
         { polls := db.polls.filter (fun r => r.id != pollId),
           poll_options := db.poll_options.filter (fun r => r.poll_id != pollId),
           votes := db.votes.filter (fun v =>
             v.poll_id != pollId &&
             !(db.poll_options.any (fun o => o.id == v.option_id && o.poll_id == pollId))) })

/-- `PollOption` of the formatted read results (`lib/types.ts`):
`votes (count)` resolves to the number of vote rows referencing the
option. -/
structure PollOption where
  id : String
  option_text : String
  votes_count : Nat
deriving DecidableEq

/-- Formatted poll returned by `fetchPollWithOptions` (`lib/types.ts`
`Poll`). -/
structure Poll where
  id : String
  title : String
  question : String
  created_at : Nat
  user_id : String
  poll_options : List PollOption
  total_votes : Nat
deriving DecidableEq

/-- Poll shape of the results page (`app/polls/[id]/results/page.tsx`): the
same data without `user_id`, options sorted for display. -/
structure ResultsPoll where
  id : String
  title : String
  question : String
  created_at : Nat
  poll_options : List PollOption
  total_votes : Nat
deriving DecidableEq

/-- The option rows of a poll (`poll_options (...)` nested select). -/
def pollOptionsOf (db : DB) (pollId : String) : List PollOptionRow :=
  db.poll_options.filter (fun o => o.poll_id == pollId)

/-- Formatting of one option: `votes_count: option.votes?.[0]?.count || 0`,
where the nested `votes (count)` aggregate counts the vote rows whose
`option_id` references the option. -/
def formatOption (votes : List VoteRow) (o : PollOptionRow) : PollOption :=
  ⟨o.id, o.option_text, votes.countP (fun v => v.option_id == o.id)⟩

/-- Query `fetchPollWithOptions(pollId)` from `lib/actions.ts`: the poll row
with its formatted options and `total_votes` computed as the `reduce` over
the per-option counts. -/
def fetchPollWithOptions (db : DB) (pollId : String) : Option Poll :=
  match findPoll db pollId with
  | none => none
  | some p =>
    let opts := (pollOptionsOf db pollId).map (formatOption db.votes)
    some ⟨p.id, p.title, p.question, p.created_at, p.user_id, opts,
          (opts.map (·.votes_count)).sum⟩

/-- Comparator of the results page sort:
`(a, b) => b.votes_count - a.votes_count` orders by vote count descending. -/
def byVotesDesc (a b : PollOption) : Prop :=
  b.votes_count ≤ a.votes_count

instance : DecidableRel byVotesDesc :=
  fun a b => inferInstanceAs (Decidable (b.votes_count ≤ a.votes_count))

/-- `fetchPollResults` from `app/polls/[id]/results/page.tsx`: the same
formatted read, with the options sorted by vote count (highest first).
The JavaScript `Array.prototype.sort` is modelled by a stable sort. -/
def fetchPollResults (db : DB) (pollId : String) : Option ResultsPoll :=
  match findPoll db pollId with
  | none => none
  | some p =>
    let opts := (pollOptionsOf db pollId).map (formatOption db.votes)
    some ⟨p.id, p.title, p.question, p.created_at,
          List.insertionSort byVotesDesc opts,
          (opts.map (·.votes_count)).sum⟩

/-- `addOption` of the create-poll form (`app/polls/create/page.tsx` and its
duplicate): appends an empty option field unless 10 fields are already
present. -/
def addOption (options : List String) : List String :=
  if options.length < 10 then options ++ [""] else options

/-- Whether a poll row with this id exists (outcome of the first read of
`submitVote`). -/
def pollExistsB (db : DB) (pollId : String) : Bool :=
  db.polls.any (fun r => r.id == pollId)

/-- Whether an option row with this id exists and belongs to the poll
(outcome of the second read of `submitVote`). -/
def optionValidB (db : DB) (pollId optionId : String) : Bool :=
  db.poll_options.any (fun r => r.id == optionId && r.poll_id == pollId)

/-- Final outcome of one `submitVote` request. -/
inductive VoteOutcome
  | success
  | notFound
  | invalidOption
  | alreadyVoted
  | insertFailed
deriving DecidableEq

/-- Error string the server action attaches to each outcome: the insert
rejected by the storage layer — uniqueness constraint included — surfaces
as the generic `'Failed to submit vote'`. -/
def voteMessage : VoteOutcome → Option String
  | .success => none
  | .notFound => some "Poll not found"
  | .invalidOption => some "Invalid option selected"
  | .alreadyVoted => some "You have already voted on this poll"
  | .insertFailed => some "Failed to submit vote"

/-- Position of an in-flight `submitVote` request between its atomic
storage operations. -/
inductive Phase
  | checkPoll
  | checkOption
  | checkDup
  | doInsert
  | done (r : VoteOutcome)
deriving DecidableEq

/-- One in-flight `submitVote(pollId, optionId, userId)` request for the
shared `(pollId, userId)` pair; requests may name different options. -/
structure VoterThread where
  optionId : String
  phase : Phase
deriving DecidableEq

/-- Shared state of the interleaved execution: the database plus every
in-flight request. -/
structure VoteRace where
  db : DB
  threads : List VoterThread
deriving DecidableEq

/-- One atomic storage operation of `submitVote`, for the thread's current
phase.  The insert re-checks `(poll_id, user_id)` because the
`UNIQUE(poll_id, user_id)` constraint is evaluated by the storage layer at
insert time; the request that loses this check ends in `insertFailed`, the
generic failure of the action's insert branch. -/
def stepThread (db : DB) (pollId userId : String) (t : VoterThread) :
    VoterThread × DB :=
  match t.phase with
  | .checkPoll =>
    if pollExistsB db pollId then ({ t with phase := .checkOption }, db)
    else ({ t with phase := .done .notFound }, db)
  | .checkOption =>
    if optionValidB db pollId t.optionId then ({ t with phase := .checkDup }, db)
    else ({ t with phase := .done .invalidOption }, db)
  | .checkDup =>
    if hasVotePU db.votes pollId userId then ({ t with phase := .done .alreadyVoted }, db)
    else ({ t with phase := .doInsert }, db)
  | .doInsert =>
    if hasVotePU db.votes pollId userId then ({ t with phase := .done .insertFailed }, db)
    else ({ t with phase := .done .success },
          { db with votes :=
              db.votes ++ [⟨freshVoteId db, pollId, t.optionId, userId, 0⟩] })
  | .done _ => (t, db)

/-- Scheduler step: thread `i` (when it exists) performs its next storage
operation. -/
def raceStep (pollId userId : String) (c : VoteRace) (i : Nat) : VoteRace :=
  match c.threads[i]? with
  | none => c
  | some t =>
    let s := stepThread c.db pollId userId t
    ⟨s.2, c.threads.set i s.1⟩

/-- Run a whole schedule of interleaved storage operations. -/
def runRace (pollId userId : String) (c : VoteRace) (sched : List Nat) : VoteRace :=
  sched.foldl (raceStep pollId userId) c

/-- Whether a request has finished. -/
def isDone (t : VoterThread) : Bool :=
  match t.phase with
  | .done _ => true
  | _ => false

/-- Whether a request finished successfully. -/
def isSuccess (t : VoterThread) : Bool :=
  t.phase == .done .success

/-- Number of vote rows for the `(pollId, userId)` pair: the quantity the
uniqueness constraint keeps at most 1. -/
def countPU (db : DB) (pollId userId : String) : Nat :=
  db.votes.countP (fun v => v.poll_id == pollId && v.user_id == userId)

/-! ### General counting lemmas -/

theorem mem_of_getElem?_eq {α : Type} {l : List α} {i : Nat} {a : α}
    (h : l[i]? = some a) : a ∈ l := by
  obtain ⟨hlt, rfl⟩ := List.getElem?_eq_some.mp h
  exact List.getElem_mem hlt

theorem countP_set_add {α : Type} (f : α → Bool) :
    ∀ (l : List α) (i : Nat) (a b : α), l[i]? = some b →
      (l.set i a).countP f + (if f b then 1 else 0) =
        l.countP f + (if f a then 1 else 0) := by
  intro l
  induction l with
  | nil => intro i a b h; simp at h
  | cons x xs ih =>
    intro i a b h
    cases i with
    | zero =>
      simp only [List.getElem?_cons_zero, Option.some.injEq] at h
      subst h
      simp only [List.set_cons_zero, List.countP_cons]
      omega
    | succ j =>
      simp only [List.getElem?_cons_succ] at h
      simp only [List.set_cons_succ, List.countP_cons]
      have := ih j a b h
      omega

theorem countP_or_disjoint {α : Type} (p q : α → Bool) :
    ∀ l : List α, (∀ a ∈ l, ¬(p a = true ∧ q a = true)) →
      l.countP (fun a => p a || q a) = l.countP p + l.countP q := by
  intro l
  induction l with
  | nil => intro _; simp
  | cons x xs ih =>
    intro h
    have hx := h x (List.mem_cons_self x xs)
    have hxs : ∀ a ∈ xs, ¬(p a = true ∧ q a = true) :=
      fun a ha => h a (List.mem_cons_of_mem x ha)
    simp only [List.countP_cons, ih hxs]
    cases hp : p x <;> cases hq : q x <;> simp [hp, hq] at hx ⊢ <;> omega

theorem countP_contains_eq_sum {α : Type} (key : α → String) (l : List α) :
    ∀ ids : List String, ids.Nodup →
      l.countP (fun a => ids.contains (key a)) =
        (ids.map (fun i => l.countP (fun a => key a == i))).sum := by
  intro ids
  induction ids with
  | nil => intro _; simp
  | cons i rest ih =>
    intro hnd
    rw [List.nodup_cons] at hnd
    have hdisj : ∀ a ∈ l, ¬((key a == i) = true ∧ rest.contains (key a) = true) := by
      intro a _ ⟨h1, h2⟩
      have : key a = i := eq_of_beq h1
      rw [this] at h2
      exact hnd.1 (by simpa using h2)
    calc l.countP (fun a => (i :: rest).contains (key a))
        = l.countP (fun a => (key a == i) || rest.contains (key a)) := by
          apply List.countP_congr
          intro a _
          simp [List.contains_cons]
      _ = l.countP (fun a => key a == i) + l.countP (fun a => rest.contains (key a)) :=
          countP_or_disjoint _ _ l hdisj
      _ = ((i :: rest).map (fun j => l.countP (fun a => key a == j))).sum := by
          rw [ih hnd.2]; simp

theorem hasVotePU_true_iff (votes : List VoteRow) (pollId userId : String) :
    hasVotePU votes pollId userId = true ↔
      1 ≤ votes.countP (fun v => v.poll_id == pollId && v.user_id == userId) := by
  unfold hasVotePU
  rw [List.any_eq_true]
  constructor
  · intro ⟨v, hv, hpred⟩
    have : 0 < votes.countP (fun v => v.poll_id == pollId && v.user_id == userId) :=
      List.countP_pos_iff.mpr ⟨v, hv, hpred⟩
    omega
  · intro h
    have hpos : 0 < votes.countP (fun v => v.poll_id == pollId && v.user_id == userId) := by
      omega
    exact List.countP_pos_iff.mp hpos

theorem hasVotePU_false_count (votes : List VoteRow) (pollId userId : String)
    (h : hasVotePU votes pollId userId = false) :
    votes.countP (fun v => v.poll_id == pollId && v.user_id == userId) = 0 := by
  rw [List.countP_eq_zero]
  intro v hv
  unfold hasVotePU at h
  rw [List.any_eq_false] at h
  exact h v hv

/-! ### The race invariant -/

/-- Invariant of every interleaved execution of duplicate `submitVote`
requests for a shared `(pollId, userId)` pair, started on a database `db0`
whose poll exists and whose options are valid for every request: the polls
and options tables never change, the number of successful requests always
equals the number of `(pollId, userId)` vote rows, that number never
exceeds 1 (the uniqueness constraint), no request fails its poll or option
check, and a request that ended in `alreadyVoted` or `insertFailed` saw an
existing vote row. -/
structure RaceInv (pollId userId : String) (db0 : DB) (c : VoteRace) : Prop where
  polls_eq : c.db.polls = db0.polls
  options_eq : c.db.poll_options = db0.poll_options
  succ_count : c.threads.countP isSuccess = countPU c.db pollId userId
  at_most_one : countPU c.db pollId userId ≤ 1
  no_precheck_fail : ∀ t ∈ c.threads,
    t.phase ≠ .done .notFound ∧ t.phase ≠ .done .invalidOption
  failed_saw : ∀ t ∈ c.threads,
    (t.phase = .done .alreadyVoted ∨ t.phase = .done .insertFailed) →
    1 ≤ countPU c.db pollId userId
  opts_valid : ∀ t ∈ c.threads, optionValidB db0 pollId t.optionId = true

theorem raceInv_set_phase (pollId userId : String) (db0 : DB) (c : VoteRace)
    (i : Nat) (t t2 : VoterThread)
    (hi : c.threads[i]? = some t)
    (h : RaceInv pollId userId db0 c)
    (hs : isSuccess t2 = isSuccess t)
    (hnf : t2.phase ≠ .done .notFound ∧ t2.phase ≠ .done .invalidOption)
    (hfail : (t2.phase = .done .alreadyVoted ∨ t2.phase = .done .insertFailed) →
      1 ≤ countPU c.db pollId userId)
    (hopt : t2.optionId = t.optionId) :
    RaceInv pollId userId db0 ⟨c.db, c.threads.set i t2⟩ := by
  have htm : t ∈ c.threads := mem_of_getElem?_eq hi
  refine ⟨h.polls_eq, h.options_eq, ?_, h.at_most_one, ?_, ?_, ?_⟩
  · have hset := countP_set_add isSuccess c.threads i t2 t hi
    rw [hs] at hset
    have := h.succ_count
    simp only [] at hset ⊢
    omega
  · intro t' ht'
    rcases List.mem_or_eq_of_mem_set ht' with h1 | h1
    · exact h.no_precheck_fail t' h1
    · subst h1; exact hnf
  · intro t' ht' hd
    rcases List.mem_or_eq_of_mem_set ht' with h1 | h1
    · exact h.failed_saw t' h1 hd
    · subst h1; exact hfail hd
  · intro t' ht'
    rcases List.mem_or_eq_of_mem_set ht' with h1 | h1
    · exact h.opts_valid t' h1
    · subst h1; rw [hopt]; exact h.opts_valid t htm

theorem raceInv_insert (pollId userId : String) (db0 : DB) (c : VoteRace)
    (i : Nat) (t : VoterThread)
    (hi : c.threads[i]? = some t)
    (h : RaceInv pollId userId db0 c)
    (hph : isSuccess t = false)
    (hnv : hasVotePU c.db.votes pollId userId = false)
    (v : VoteRow) (hvp : v.poll_id = pollId) (hvu : v.user_id = userId) :
    RaceInv pollId userId db0
      ⟨{ c.db with votes := c.db.votes ++ [v] },
       c.threads.set i { t with phase := .done .success }⟩ := by
  have hc0 : countPU c.db pollId userId = 0 := hasVotePU_false_count _ _ _ hnv
  have hcnew : countPU { c.db with votes := c.db.votes ++ [v] } pollId userId = 1 := by
    unfold countPU at hc0 ⊢
    simp only [List.countP_append, hc0]
    simp [List.countP_cons, hvp, hvu]
  refine ⟨h.polls_eq, h.options_eq, ?_, ?_, ?_, ?_, ?_⟩
  · show (c.threads.set i { t with phase := .done .success }).countP isSuccess =
      countPU { c.db with votes := c.db.votes ++ [v] } pollId userId
    have hset := countP_set_add isSuccess c.threads i { t with phase := .done .success } t hi
    have hsucc : isSuccess { t with phase := .done .success } = true := by
      simp [isSuccess]
    rw [hsucc, hph] at hset
    simp only [eq_self_iff_true, if_true, Bool.false_eq_true, if_false,
      Nat.add_zero] at hset
    have := h.succ_count
    rw [hcnew]
    omega
  · show countPU { c.db with votes := c.db.votes ++ [v] } pollId userId ≤ 1
    omega
  · intro t' ht'
    rcases List.mem_or_eq_of_mem_set ht' with h1 | h1
    · exact h.no_precheck_fail t' h1
    · subst h1; constructor <;> simp
  · intro t' _ _
    show 1 ≤ countPU { c.db with votes := c.db.votes ++ [v] } pollId userId
    omega
  · intro t' ht'
    rcases List.mem_or_eq_of_mem_set ht' with h1 | h1
    · exact h.opts_valid t' h1
    · subst h1
      exact h.opts_valid t (mem_of_getElem?_eq hi)

theorem raceInv_step (pollId userId : String) (db0 : DB)
    (hp : pollExistsB db0 pollId = true)
    (c : VoteRace) (i : Nat) (h : RaceInv pollId userId db0 c) :
    RaceInv pollId userId db0 (raceStep pollId userId c i) := by
  unfold raceStep
  cases hi : c.threads[i]? with
  | none => exact h
  | some t =>
    have htm : t ∈ c.threads := mem_of_getElem?_eq hi
    obtain ⟨oid, ph⟩ := t
    cases ph with
    | checkPoll =>
      have hpe : pollExistsB c.db pollId = true := by
        unfold pollExistsB at hp ⊢
        rw [h.polls_eq]
        exact hp
      simp only [stepThread, hpe, if_true]
      exact raceInv_set_phase pollId userId db0 c i _ _ hi h (by simp [isSuccess])
        (by simp) (by simp) rfl
    | checkOption =>
      have hov : optionValidB c.db pollId oid = true := by
        have := h.opts_valid _ htm
        unfold optionValidB at this ⊢
        rw [h.options_eq]
        exact this
      simp only [stepThread, hov, if_true]
      exact raceInv_set_phase pollId userId db0 c i _ _ hi h (by simp [isSuccess])
        (by simp) (by simp) rfl
    | checkDup =>
      cases hdup : hasVotePU c.db.votes pollId userId with
      | true =>
        simp only [stepThread, hdup, if_true]
        refine raceInv_set_phase pollId userId db0 c i _ _ hi h (by simp [isSuccess])
          (by simp) ?_ rfl
        intro _
        exact (hasVotePU_true_iff _ _ _).mp hdup
      | false =>
        simp only [stepThread, hdup, Bool.false_eq_true, if_false]
        exact raceInv_set_phase pollId userId db0 c i _ _ hi h (by simp [isSuccess])
          (by simp) (by simp) rfl
    | doInsert =>
      cases hdup : hasVotePU c.db.votes pollId userId with
      | true =>
        simp only [stepThread, hdup, if_true]
        refine raceInv_set_phase pollId userId db0 c i _ _ hi h (by simp [isSuccess])
          (by simp) ?_ rfl
        intro _
        exact (hasVotePU_true_iff _ _ _).mp hdup
      | false =>
        simp only [stepThread, hdup, Bool.false_eq_true, if_false]
        exact raceInv_insert pollId userId db0 c i _ hi h (by simp [isSuccess]) hdup
          _ rfl rfl
    | done r =>
      simp only [stepThread]
      exact raceInv_set_phase pollId userId db0 c i _ _ hi h rfl
        (h.no_precheck_fail _ htm) (h.failed_saw _ htm) rfl

theorem raceInv_run (pollId userId : String) (db0 : DB)
    (hp : pollExistsB db0 pollId = true) (sched : List Nat) :
    ∀ c : VoteRace, RaceInv pollId userId db0 c →
      RaceInv pollId userId db0 (runRace pollId userId c sched) := by
  induction sched with
  | nil => intro c h; exact h
  | cons i rest ih =>
    intro c h
    simp only [runRace, List.foldl_cons] at *
    exact ih _ (raceInv_step pollId userId db0 hp c i h)

theorem raceStep_length (pollId userId : String) (c : VoteRace) (i : Nat) :
    (raceStep pollId userId c i).threads.length = c.threads.length := by
  unfold raceStep
  cases hi : c.threads[i]? with
  | none => rfl
  | some t => simp

theorem runRace_length (pollId userId : String) (sched : List Nat) :
    ∀ c : VoteRace,
      (runRace pollId userId c sched).threads.length = c.threads.length := by
  induction sched with
  | nil => intro c; rfl
  | cons i rest ih =>
    intro c
    simp only [runRace, List.foldl_cons] at *
    rw [ih, raceStep_length]

theorem raceInv_init (pollId userId : String) (db0 : DB)
    (threads0 : List VoterThread)
    (hv : hasVotePU db0.votes pollId userId = false)
    (hstart : ∀ t ∈ threads0,
      t.phase = .checkPoll ∧ optionValidB db0 pollId t.optionId = true) :
    RaceInv pollId userId db0 ⟨db0, threads0⟩ := by
  have hc0 : countPU db0 pollId userId = 0 := hasVotePU_false_count _ _ _ hv
  refine ⟨rfl, rfl, ?_, ?_, ?_, ?_, fun t ht => (hstart t ht).2⟩
  · show threads0.countP isSuccess = countPU db0 pollId userId
    rw [hc0, List.countP_eq_zero]
    intro t ht
    simp [isSuccess, (hstart t ht).1]
  · show countPU db0 pollId userId ≤ 1
    omega
  · intro t ht
    rw [(hstart t ht).1]
    constructor <;> simp
  · intro t ht hd
    rw [(hstart t ht).1] at hd
    rcases hd with hd | hd <;> simp at hd

theorem race_outcome_shape (pollId userId : String) (db0 : DB) (c : VoteRace)
    (hinv : RaceInv pollId userId db0 c)
    (t : VoterThread) (ht : t ∈ c.threads) (hd : isDone t = true) :
    t.phase = .done .success ∨ t.phase = .done .alreadyVoted ∨
      t.phase = .done .insertFailed := by
  obtain ⟨oid, ph⟩ := t
  cases ph with
  | done r =>
    cases r with
    | success => exact Or.inl rfl
    | notFound => exact absurd rfl (hinv.no_precheck_fail _ ht).1
    | invalidOption => exact absurd rfl (hinv.no_precheck_fail _ ht).2
    | alreadyVoted => exact Or.inr (Or.inl rfl)
    | insertFailed => exact Or.inr (Or.inr rfl)
  | checkPoll => simp [isDone] at hd
  | checkOption => simp [isDone] at hd
  | checkDup => simp [isDone] at hd
  | doInsert => simp [isDone] at hd

theorem findVote_none_hasVotePU (db : DB) (pollId userId : String)
    (h : findVote db pollId userId = none) :
    hasVotePU db.votes pollId userId = false := by
  unfold findVote at h
  unfold hasVotePU
  rw [List.find?_eq_none] at h
  rw [List.any_eq_false]
  exact h

/-! ### Concrete fixtures -/

/-- A database holding one poll `p1` of owner `u1` with options `o1`, `o2`
and no votes. -/
def dbPoll : DB :=
  ⟨[⟨"p1", "T", "Q", "u1", 0⟩],
   [⟨"o1", "p1", "A", 0⟩, ⟨"o2", "p1", "B", 0⟩],
   []⟩

/-- `dbPoll` after three users voted: one for `o1`, two for `o2`. -/
def dbVotes : DB :=
  ⟨[⟨"p1", "T", "Q", "u1", 0⟩],
   [⟨"o1", "p1", "A", 0⟩, ⟨"o2", "p1", "B", 0⟩],
   [⟨"v1", "p1", "o1", "u2", 0⟩, ⟨"v2", "p1", "o2", "u3", 0⟩,
    ⟨"v3", "p1", "o2", "u4", 0⟩]⟩

/-- Poll `p1` with a third option `o3` that carries the vote of user `u2`. -/
def dbThree : DB :=
  ⟨[⟨"p1", "T", "Q", "u1", 0⟩],
   [⟨"o1", "p1", "A", 0⟩, ⟨"o2", "p1", "B", 0⟩, ⟨"o3", "p1", "C", 0⟩],
   [⟨"v1", "p1", "o3", "u2", 0⟩]⟩

/-- The empty database. -/
def dbEmpty : DB := ⟨[], [], []⟩

/-- An edit form referencing only `o1` and `o2` of `dbThree` (so the spec
expects `o3` to be deleted). -/
def fdEditTwo : EditPollFormData :=
  ⟨"T2", "Q2", [⟨some "o1", "A2", false⟩, ⟨some "o2", "B2", false⟩]⟩

/-- A create form with eleven non-blank option texts. -/
def elevenOptions : CreatePollFormData :=
  ⟨"T", "Q", ["a", "b", "c", "d", "e", "f", "g", "h", "i", "j", "k"]⟩

/-- The formatted aggregate of `dbVotes`. -/
def pollVotes : Poll :=
  ⟨"p1", "T", "Q", 0, "u1", [⟨"o1", "A", 1⟩, ⟨"o2", "B", 2⟩], 3⟩

/-! ### Claim theorems -/

/-- C2: `submitVote` checks its preconditions in order — poll existence
(`'Poll not found'`), then option existence and membership in the poll
(`'Invalid option selected'`), then absence of a vote for
`(pollId, voterId)` (`'You have already voted on this poll'`) — and when
all three hold it succeeds, inserting exactly the one new vote row for
`(pollId, optionId, voterId)` and leaving the other tables unchanged. -/
theorem submitVote_checks_in_order (db : DB) (pollId optionId userId : String)
    (resp : ApiResponse Unit) (db' : DB)
    (h : submitVote db pollId optionId userId [] = (resp, db')) :
    (resp.error = some "Poll not found" ↔ findPoll db pollId = none) ∧
    (resp.error = some "Invalid option selected" ↔
      (findPoll db pollId).isSome ∧ findOption db optionId pollId = none) ∧
    (resp.error = some "You have already voted on this poll" ↔
      (findPoll db pollId).isSome ∧ (findOption db optionId pollId).isSome ∧
        (findVote db pollId userId).isSome) ∧
    ((findPoll db pollId).isSome → (findOption db optionId pollId).isSome →
      findVote db pollId userId = none →
      resp = respOk ∧
        db' = { db with votes :=
          db.votes ++ [⟨freshVoteId db, pollId, optionId, userId, 0⟩] }) := by
  unfold submitVote at h
  cases hfp : findPoll db pollId with
  | none =>
    rw [hfp] at h
    injection h with h1 h2
    subst h1
    subst h2
    refine ⟨by simp [respErr], iff_of_false (by decide) (by simp),
      iff_of_false (by decide) (by simp), ?_⟩
    intro hps _ _
    simp at hps
  | some p =>
    rw [hfp] at h
    cases hfo : findOption db optionId pollId with
    | none =>
      rw [hfo] at h
      injection h with h1 h2
      subst h1
      subst h2
      refine ⟨iff_of_false (by decide) (by simp), by simp [respErr],
        iff_of_false (by decide) (by simp), ?_⟩
      intro _ hos _
      simp at hos
    | some o =>
      rw [hfo] at h
      cases hfv : findVote db pollId userId with
      | some v =>
        rw [hfv] at h
        injection h with h1 h2
        subst h1
        subst h2
        refine ⟨iff_of_false (by decide) (by simp),
          iff_of_false (by decide) (by simp), by simp [respErr], ?_⟩
        intro _ _ hvn
        simp at hvn
      | none =>
        rw [hfv] at h
        have hpu := findVote_none_hasVotePU db pollId userId hfv
        rw [hpu] at h
        simp only [nextFail, Bool.or_false, Bool.false_eq_true, if_false] at h
        injection h with h1 h2
        subst h1
        subst h2
        refine ⟨iff_of_false (by decide) (by simp),
          iff_of_false (by decide) (by simp),
          iff_of_false (by decide) (by simp), ?_⟩
        intro _ _ _
        exact ⟨rfl, rfl⟩

/-- C2 witness: on `dbPoll`, a fresh vote by `u2` on option `o1` succeeds
and appends exactly one vote row. -/
theorem submitVote_checks_in_order_witness :
    (submitVote dbPoll "p1" "o1" "u2" []).1 = respOk ∧
    (submitVote dbPoll "p1" "o1" "u2" []).2 =
      { dbPoll with votes :=
          dbPoll.votes ++ [⟨freshVoteId dbPoll, "p1", "o1", "u2", 0⟩] } :=
  (submitVote_checks_in_order dbPoll "p1" "o1" "u2" _ _ rfl).2.2.2
    (by decide) (by decide) (by decide)

/-- C5, evaluated at the failing input: the owner updates `dbThree` through
`updatePoll` with a form referencing only `o1` and `o2`; the call reports
success, yet option `o3` — absent from the edits — is still present, its
vote included, although the action's documentation and the specification
require its deletion. -/
theorem updatePoll_keeps_unreferenced_option :
    (updatePoll dbThree "p1" fdEditTwo "u1" []).1.success = true ∧
    (⟨"o3", "p1", "C", 0⟩ : PollOptionRow) ∈
      (updatePoll dbThree "p1" fdEditTwo "u1" []).2.poll_options ∧
    (⟨"v1", "p1", "o3", "u2", 0⟩ : VoteRow) ∈
      (updatePoll dbThree "p1" fdEditTwo "u1" []).2.votes := by
  decide

/-- C6: `createPoll` with fewer than 2 non-blank option texts always fails
with one of the two validation messages and leaves the database — in
particular the polls table — untouched, whatever the storage layer would
have done. -/
theorem createPoll_too_few_options (db : DB) (formData : CreatePollFormData)
    (userId : String) (fails : List Bool) (resp : ApiResponse PollRow) (db' : DB)
    (hlt : (formData.options.filter (fun o => jsTrim o != "")).length < 2)
    (h : createPoll db formData userId fails = (resp, db')) :
    resp.success = false ∧ db' = db ∧
      (resp.error = some "Title and question are required" ∨
        resp.error = some "At least 2 options are required") := by
  unfold createPoll at h
  split at h
  · injection h with h1 h2
    subst h1
    subst h2
    exact ⟨rfl, rfl, Or.inl rfl⟩
  · rw [if_pos hlt] at h
    injection h with h1 h2
    subst h1
    subst h2
    exact ⟨rfl, rfl, Or.inr rfl⟩

/-- C6 witness: creating a poll with the single option text `'only'` fails
and changes nothing. -/
theorem createPoll_too_few_options_witness :
    (createPoll dbPoll ⟨"T", "Q", ["only"]⟩ "u1" []).1.success = false ∧
    (createPoll dbPoll ⟨"T", "Q", ["only"]⟩ "u1" []).2 = dbPoll ∧
      ((createPoll dbPoll ⟨"T", "Q", ["only"]⟩ "u1" []).1.error =
          some "Title and question are required" ∨
        (createPoll dbPoll ⟨"T", "Q", ["only"]⟩ "u1" []).1.error =
          some "At least 2 options are required") :=
  createPoll_too_few_options dbPoll ⟨"T", "Q", ["only"]⟩ "u1" [] _ _
    (by decide) rfl

/-- C7 counterexample: `createPoll` performs no maximum-option validation —
on the empty database a form with eleven non-blank option texts succeeds
and the created poll `p0` owns eleven option rows. -/
theorem createPoll_accepts_eleven_options :
    (createPoll dbEmpty elevenOptions "u1" []).1.success = true ∧
    (createPoll dbEmpty elevenOptions "u1" []).1.data =
      some ⟨"p0", "T", "Q", "u1", 0⟩ ∧
    (createPoll dbEmpty elevenOptions "u1" []).2.poll_options.countP
        (fun o => o.poll_id == "p0") = 11 := by
  decide

/-- C7 amended: the 10-option limit lives only in the create-form UI —
`addOption` never grows the option-field list beyond 10 entries and leaves
a full list unchanged — while `createPoll` itself accepts any number of
texts. -/
theorem addOption_caps_at_ten (options : List String)
    (h : options.length ≤ 10) :
    (addOption options).length ≤ 10 ∧
      (options.length = 10 → addOption options = options) := by
  unfold addOption
  constructor
  · split
    · simp
      omega
    · omega
  · intro h10
    rw [if_neg (by omega)]

/-- C7 amended witness: a form already holding ten option fields is not
grown further. -/
theorem addOption_caps_at_ten_witness :
    (addOption ["a", "b", "c", "d", "e", "f", "g", "h", "i", "j"]).length ≤ 10 ∧
      (["a", "b", "c", "d", "e", "f", "g", "h", "i", "j"].length = 10 →
        addOption ["a", "b", "c", "d", "e", "f", "g", "h", "i", "j"] =
          ["a", "b", "c", "d", "e", "f", "g", "h", "i", "j"]) :=
  addOption_caps_at_ten ["a", "b", "c", "d", "e", "f", "g", "h", "i", "j"]
    (by decide)

/-- C10: `updatePoll` is not atomic on failure — with the storage layer
rejecting the second option update, the call returns the failure
`'Failed to update poll options'` while the new title and question and the
already-applied update of `o1` remain persisted (`o2` keeps its old
text). -/
theorem updatePoll_partial_failure :
    (updatePoll dbThree "p1" fdEditTwo "u1" [false, false, true]).1.success = false ∧
    (updatePoll dbThree "p1" fdEditTwo "u1" [false, false, true]).1.error =
      some "Failed to update poll options" ∧
    (updatePoll dbThree "p1" fdEditTwo "u1" [false, false, true]).2.polls =
      [⟨"p1", "T2", "Q2", "u1", 0⟩] ∧
    (⟨"o1", "p1", "A2", 0⟩ : PollOptionRow) ∈
      (updatePoll dbThree "p1" fdEditTwo "u1" [false, false, true]).2.poll_options ∧
    (⟨"o2", "p1", "B", 0⟩ : PollOptionRow) ∈
      (updatePoll dbThree "p1" fdEditTwo "u1" [false, false, true]).2.poll_options := by
  decide

/-- C1 counterexample: two concurrent `submitVote` requests for the same
`(pollId, voterId)` pair, interleaved so that both pass the application
duplicate check; exactly one succeeds, yet the other ends in
`insertFailed` — the generic insert failure — not in `alreadyVoted`. -/
theorem race_loser_without_alreadyVoted :
    ((runRace "p1" "u9" ⟨dbPoll, [⟨"o1", .checkPoll⟩, ⟨"o2", .checkPoll⟩]⟩
        [0, 1, 0, 1, 0, 1, 0, 1]).threads.countP isSuccess = 1) ∧
    (∀ t ∈ (runRace "p1" "u9" ⟨dbPoll, [⟨"o1", .checkPoll⟩, ⟨"o2", .checkPoll⟩]⟩
        [0, 1, 0, 1, 0, 1, 0, 1]).threads, isDone t = true) ∧
    ((runRace "p1" "u9" ⟨dbPoll, [⟨"o1", .checkPoll⟩, ⟨"o2", .checkPoll⟩]⟩
        [0, 1, 0, 1, 0, 1, 0, 1]).threads[1]? =
      some ⟨"o2", .done .insertFailed⟩) ∧
    Phase.done .insertFailed ≠ Phase.done .alreadyVoted := by
  decide

/-- C1 amended: in every interleaved execution of concurrent `submitVote`
requests for the same `(pollId, voterId)` pair — the poll existing, every
requested option valid, no prior vote — that runs all requests to
completion, exactly one request succeeds and every other one fails, either
with `alreadyVoted` (caught by the application-level check) or with the
generic `insertFailed` (caught by the `UNIQUE(poll_id, user_id)` constraint
at insert time). -/
theorem race_exactly_one_success (db0 : DB) (pollId userId : String)
    (threads0 : List VoterThread) (sched : List Nat) (final : VoteRace)
    (hrun : runRace pollId userId ⟨db0, threads0⟩ sched = final)
    (hp : pollExistsB db0 pollId = true)
    (hv : hasVotePU db0.votes pollId userId = false)
    (hne : threads0 ≠ [])
    (hstart : ∀ t ∈ threads0,
      t.phase = .checkPoll ∧ optionValidB db0 pollId t.optionId = true)
    (hdone : ∀ t ∈ final.threads, isDone t = true) :
    final.threads.countP isSuccess = 1 ∧
      ∀ t ∈ final.threads,
        t.phase = .done .success ∨ t.phase = .done .alreadyVoted ∨
          t.phase = .done .insertFailed := by
  subst hrun
  have hinv := raceInv_run pollId userId db0 hp sched _
    (raceInv_init pollId userId db0 threads0 hv hstart)
  have hshape : ∀ t ∈ (runRace pollId userId ⟨db0, threads0⟩ sched).threads,
      t.phase = .done .success ∨ t.phase = .done .alreadyVoted ∨
        t.phase = .done .insertFailed :=
    fun t ht => race_outcome_shape pollId userId db0 _ hinv t ht (hdone t ht)
  refine ⟨?_, hshape⟩
  have hsc := hinv.succ_count
  have hle := hinv.at_most_one
  have hlen := runRace_length pollId userId sched ⟨db0, threads0⟩
  have hpos : 0 < (runRace pollId userId ⟨db0, threads0⟩ sched).threads.length := by
    rw [hlen]
    exact List.length_pos.mpr hne
  obtain ⟨t, ht⟩ := List.exists_mem_of_length_pos hpos
  by_contra hne1
  have h0 : (runRace pollId userId ⟨db0, threads0⟩ sched).threads.countP isSuccess = 0 := by
    omega
  have hns := List.countP_eq_zero.mp h0
  rcases hshape t ht with hs | hs | hs
  · exact hns t ht (by simp [isSuccess, hs])
  · have := hinv.failed_saw t ht (Or.inl hs)
    omega
  · have := hinv.failed_saw t ht (Or.inr hs)
    omega

/-- C1 amended witness: two requests on `dbPoll`, one finishing before the
other starts checking; the run completes, exactly one succeeds and both
end in one of the three allowed outcomes. -/
theorem race_exactly_one_success_witness :
    (runRace "p1" "u9" ⟨dbPoll, [⟨"o1", .checkPoll⟩, ⟨"o2", .checkPoll⟩]⟩
        [0, 0, 0, 0, 1, 1, 1]).threads.countP isSuccess = 1 ∧
      ∀ t ∈ (runRace "p1" "u9" ⟨dbPoll, [⟨"o1", .checkPoll⟩, ⟨"o2", .checkPoll⟩]⟩
          [0, 0, 0, 0, 1, 1, 1]).threads,
        t.phase = .done .success ∨ t.phase = .done .alreadyVoted ∨
          t.phase = .done .insertFailed :=
  race_exactly_one_success dbPoll "p1" "u9"
    [⟨"o1", .checkPoll⟩, ⟨"o2", .checkPoll⟩] [0, 0, 0, 0, 1, 1, 1] _ rfl
    (by decide) (by decide) (by decide) (by decide) (by decide)

/-- C3 counterexample: a concrete interleaving in which the vote insert is
rejected by the storage layer's uniqueness constraint (the request had
already passed the application duplicate check), and the surfaced message
is the generic `'Failed to submit vote'`, not the `AlreadyVoted`
message. -/
theorem constraint_rejection_not_alreadyVoted :
    ((runRace "p1" "u9" ⟨dbPoll, [⟨"o1", .checkPoll⟩, ⟨"o2", .checkPoll⟩]⟩
        [0, 0, 0, 1, 1, 1, 0, 1]).threads[1]? =
      some ⟨"o2", .done .insertFailed⟩) ∧
    voteMessage .insertFailed = some "Failed to submit vote" ∧
    voteMessage .insertFailed ≠ some "You have already voted on this poll" := by
  decide

/-- C3 amended: whenever the insert step of a `submitVote` request is
rejected by the `UNIQUE(poll_id, user_id)` constraint — a vote row for the
pair already exists at insert time — the request ends in `insertFailed`,
surfaced as the generic `'Failed to submit vote'`, which differs from the
`AlreadyVoted` message. -/
theorem constraint_rejection_is_generic (db : DB) (pollId userId : String)
    (t : VoterThread) (hph : t.phase = .doInsert)
    (hdup : hasVotePU db.votes pollId userId = true) :
    (stepThread db pollId userId t).1.phase = .done .insertFailed ∧
    voteMessage .insertFailed = some "Failed to submit vote" ∧
    voteMessage .insertFailed ≠ voteMessage .alreadyVoted := by
  obtain ⟨oid, ph⟩ := t
  simp only at hph
  subst hph
  refine ⟨?_, rfl, by decide⟩
  simp [stepThread, hdup]

/-- C3 amended witness: on `dbVotes`, user `u2` already holds a vote on
`p1`; a request at its insert step ends in the generic failure. -/
theorem constraint_rejection_is_generic_witness :
    (stepThread dbVotes "p1" "u2" ⟨"o1", .doInsert⟩).1.phase =
        .done .insertFailed ∧
    voteMessage .insertFailed = some "Failed to submit vote" ∧
    voteMessage .insertFailed ≠ voteMessage .alreadyVoted :=
  constraint_rejection_is_generic dbVotes "p1" "u2" ⟨"o1", .doInsert⟩ rfl
    (by decide)

/-- C4: the aggregate read returns `total_votes` equal to the sum of the
per-option `votes_count`, and — whenever the options of the poll have
distinct ids and a vote references the poll exactly when its option is one
of the poll's options (the referential validity the schema and
`submitVote` maintain) — that total also equals the number of vote rows
referencing the poll. -/
theorem fetchPollWithOptions_aggregation (db : DB) (pollId : String)
    (poll : Poll)
    (h : fetchPollWithOptions db pollId = some poll)
    (hnodup : ((pollOptionsOf db pollId).map PollOptionRow.id).Nodup)
    (href : ∀ v ∈ db.votes,
      (v.poll_id == pollId) =
        ((pollOptionsOf db pollId).map PollOptionRow.id).contains v.option_id) :
    poll.total_votes = (poll.poll_options.map PollOption.votes_count).sum ∧
    poll.total_votes = db.votes.countP (fun v => v.poll_id == pollId) := by
  unfold fetchPollWithOptions at h
  cases hfp : findPoll db pollId with
  | none =>
    rw [hfp] at h
    simp at h
  | some p =>
    rw [hfp] at h
    simp only [Option.some.injEq] at h
    subst h
    constructor
    · rfl
    · show (((pollOptionsOf db pollId).map (formatOption db.votes)).map
          PollOption.votes_count).sum =
        db.votes.countP (fun v => v.poll_id == pollId)
      have h1 : db.votes.countP (fun v => v.poll_id == pollId) =
          db.votes.countP (fun v =>
            ((pollOptionsOf db pollId).map PollOptionRow.id).contains v.option_id) :=
        List.countP_congr (fun v hv => by rw [href v hv])
      have h2 := countP_contains_eq_sum (fun v : VoteRow => v.option_id) db.votes
        ((pollOptionsOf db pollId).map PollOptionRow.id) hnodup
      rw [h1, h2, List.map_map, List.map_map]
      rfl

/-- C4 witness: on `dbVotes`, the formatted aggregate reports 3 total
votes, the sum of the per-option counts and the number of vote rows of
`p1`. -/
theorem fetchPollWithOptions_aggregation_witness :
    pollVotes.total_votes = (pollVotes.poll_options.map PollOption.votes_count).sum ∧
    pollVotes.total_votes = dbVotes.votes.countP (fun v => v.poll_id == "p1") :=
  fetchPollWithOptions_aggregation dbVotes "p1" pollVotes (by decide)
    (by decide) (by decide)

/-- C8 counterexample: validation runs before the ownership check — a
non-owner (`u2` against owner `u1`) calling `updatePoll` with a blank
title is answered with the validation message, not with the
`Forbidden`-style `'Poll not found or access denied'`. -/
theorem non_owner_gets_validation_error :
    (updatePoll dbPoll "p1" ⟨"", "Q", [⟨none, "x", true⟩, ⟨none, "y", true⟩]⟩
        "u2" []).1.error = some "Title and question are required" ∧
    some "Title and question are required" ≠
      some "Poll not found or access denied" ∧
    (findPoll dbPoll "p1").map PollRow.user_id = some "u1" ∧
    "u1" ≠ "u2" := by
  decide

/-- C8 amended: a `deletePoll` call by a non-owner always fails with
`'Poll not found or access denied'` and changes nothing; an `updatePoll`
call by a non-owner whose inputs pass validation fails the same way, and
even with invalid inputs it still fails (then with the validation message)
and changes nothing. -/
theorem non_owner_mutations_rejected (db : DB) (pollId userId : String)
    (poll : PollRow) (formData : EditPollFormData) (failsU failsD : List Bool)
    (hfind : findPoll db pollId = some poll)
    (hown : (poll.user_id != userId) = true) :
    deletePoll db pollId userId failsD =
      (respErr "Poll not found or access denied", db) ∧
    ((jsTrim formData.title == "") = false →
      (jsTrim formData.question == "") = false →
      ¬((formData.options.filter (fun o => jsTrim o.text != "")).length < 2) →
      updatePoll db pollId formData userId failsU =
        (respErr "Poll not found or access denied", db)) ∧
    ((updatePoll db pollId formData userId failsU).1.success = false ∧
      (updatePoll db pollId formData userId failsU).2 = db) := by
  refine ⟨?_, ?_, ?_⟩
  · unfold deletePoll
    rw [hfind]
    exact if_pos hown
  · intro h1 h2 h3
    unfold updatePoll
    rw [if_neg (show ¬((jsTrim formData.title == "" ||
        jsTrim formData.question == "") = true) from by rw [h1, h2]; decide)]
    rw [if_neg h3, hfind]
    exact if_pos hown
  · have hcases : updatePoll db pollId formData userId failsU =
        (respErr "Title and question are required", db) ∨
        updatePoll db pollId formData userId failsU =
          (respErr "At least 2 options are required", db) ∨
        updatePoll db pollId formData userId failsU =
          (respErr "Poll not found or access denied", db) := by
      unfold updatePoll
      split
      · exact Or.inl rfl
      · split
        · exact Or.inr (Or.inl rfl)
        · rw [hfind]
          exact Or.inr (Or.inr (if_pos hown))
    rcases hcases with hc | hc | hc <;> rw [hc] <;> exact ⟨rfl, rfl⟩

/-- C8 amended witness: on `dbPoll` (owner `u1`), requester `u2` can
neither delete the poll nor update it with valid inputs; both calls return
the access-denied failure and leave the database unchanged. -/
theorem non_owner_mutations_rejected_witness :
    deletePoll dbPoll "p1" "u2" [] =
      (respErr "Poll not found or access denied", dbPoll) ∧
    updatePoll dbPoll "p1" fdEditTwo "u2" [] =
      (respErr "Poll not found or access denied", dbPoll) :=
  ⟨(non_owner_mutations_rejected dbPoll "p1" "u2" ⟨"p1", "T", "Q", "u1", 0⟩
      fdEditTwo [] [] (by decide) (by decide)).1,
   (non_owner_mutations_rejected dbPoll "p1" "u2" ⟨"p1", "T", "Q", "u1", 0⟩
      fdEditTwo [] [] (by decide) (by decide)).2.1
    (by decide) (by decide) (by decide)⟩

/-- C9: the results view returns exactly the poll's formatted options — a
permutation of the options the plain aggregate read returns — sorted by
`votes_count` in non-increasing order. -/
theorem fetchPollResults_sorted (db : DB) (pollId : String)
    (rp : ResultsPoll) (wp : Poll)
    (h1 : fetchPollResults db pollId = some rp)
    (h2 : fetchPollWithOptions db pollId = some wp) :
    rp.poll_options.Pairwise (fun a b => b.votes_count ≤ a.votes_count) ∧
    rp.poll_options.Perm wp.poll_options := by
  unfold fetchPollResults at h1
  unfold fetchPollWithOptions at h2
  cases hfp : findPoll db pollId with
  | none =>
    rw [hfp] at h1
    simp at h1
  | some p =>
    rw [hfp] at h1
    rw [hfp] at h2
    simp only [Option.some.injEq] at h1 h2
    subst h1
    subst h2
    haveI : IsTotal PollOption byVotesDesc :=
      ⟨fun a b => Nat.le_total b.votes_count a.votes_count⟩
    haveI : IsTrans PollOption byVotesDesc :=
      ⟨fun _ _ _ hab hbc => le_trans hbc hab⟩
    constructor
    · show (List.insertionSort byVotesDesc
          ((pollOptionsOf db pollId).map (formatOption db.votes))).Pairwise
        (fun a b => b.votes_count ≤ a.votes_count)
      exact List.sorted_insertionSort byVotesDesc
        ((pollOptionsOf db pollId).map (formatOption db.votes))
    · show (List.insertionSort byVotesDesc
          ((pollOptionsOf db pollId).map (formatOption db.votes))).Perm
        ((pollOptionsOf db pollId).map (formatOption db.votes))
      exact List.perm_insertionSort byVotesDesc _

/-- C9 witness: on `dbVotes`, the results view lists `o2` (2 votes) before
`o1` (1 vote), a sorted permutation of the plain aggregate's options. -/
theorem fetchPollResults_sorted_witness :
    (⟨"p1", "T", "Q", 0, [⟨"o2", "B", 2⟩, ⟨"o1", "A", 1⟩], 3⟩ :
        ResultsPoll).poll_options.Pairwise
      (fun a b => b.votes_count ≤ a.votes_count) ∧
    (⟨"p1", "T", "Q", 0, [⟨"o2", "B", 2⟩, ⟨"o1", "A", 1⟩], 3⟩ :
        ResultsPoll).poll_options.Perm pollVotes.poll_options :=
  fetchPollResults_sorted dbVotes "p1"
    ⟨"p1", "T", "Q", 0, [⟨"o2", "B", 2⟩, ⟨"o1", "A", 1⟩], 3⟩ pollVotes
    (by decide) (by decide)

end AlxPolly
